import Mathlib

/-!
Verification of the To-Do Flask application (`app.py`) against its specification.

The application is embedded shallowly: each route handler becomes a pure Lean
function from the server state (the process-wide `client` variable and the
document store) and a per-request oracle `Env` describing what the external
world does (what `MongoClient(MONGO_URI)` does, what the `ismaster` ping does,
what `insert_one` does, and what `datetime.datetime.now()` reads) to the
resulting HTTP response and the new state.
-/

namespace TodoApp

/-- A BSON-like field value as persisted by `insert_one`: a Python string maps
to a BSON string, Python `None` to BSON null, a `datetime` to a BSON date. -/
inductive BValue
  | str (s : String)
  | null
  | time (t : Nat)
  deriving DecidableEq, Repr

/-- A persisted document: the store-assigned identifier (`_id`, modelled as the
value of the store's id counter at insertion) plus the named fields of the
inserted dictionary, in insertion order. -/
structure StoredDoc where
  id : Nat
  fields : List (String × BValue)
  deriving DecidableEq, Repr

/-- The state of the MongoDB collection: the persisted documents in insertion
order, and the identifier the store will assign to the next inserted document. -/
structure Store where
  docs : List StoredDoc
  nextId : Nat
  deriving DecidableEq, Repr

/-- The collection at process start: empty. -/
def initStore : Store := ⟨[], 0⟩

/-- Submitted form data. `none` models an absent field: `request.form.get`
returns `None` when the key is missing. -/
structure Form where
  itemName : Option String
  itemDescription : Option String
  deriving DecidableEq, Repr

/-- Python truthiness test `not item_name` applied to the result of
`request.form.get('itemName')`: true when the field is absent (`None`) or is
the empty string. -/
def pyFalsy : Option String → Bool
  | none => true
  | some s => s.isEmpty

/-- The class of a raised Python exception, as the code distinguishes them:
pymongo's `ConnectionFailure` versus every other exception class. -/
inductive ExcClass
  | connectionFailure
  | other
  deriving DecidableEq, Repr

/-- Outcome of one call into the external world: normal return, or a raised
exception of a given class carrying its error text (`str(e)`). -/
inductive CallOutcome
  | ok
  | raise (cls : ExcClass) (msg : String)
  deriving DecidableEq, Repr

/-- Per-request oracle for external effects: the outcome of the
`MongoClient(MONGO_URI)` constructor, of `client.admin.command('ismaster')`,
and of `collection.insert_one`, the identity of a freshly constructed client,
and the reading of `datetime.datetime.now()`. -/
structure Env where
  createOutcome : CallOutcome
  pingOutcome : CallOutcome
  insertOutcome : CallOutcome
  newHandle : Nat
  now : Nat
  deriving DecidableEq, Repr

deriving instance DecidableEq for Except

/-- Result of `get_mongo_collection()`: either a normal return (`some ()` is
the collection object, `none` is Python `None`) or an uncaught exception with
its text; together with the new value of the global `client` and whether the
`ismaster` ping was executed during this call. -/
structure GetCollOut where
  result : Except String (Option Unit)
  client : Option Nat
  pinged : Bool
  deriving DecidableEq, Repr

/-- `get_mongo_collection()` from `app.py`: if the global `client` is set it is
reused as is (no ping); otherwise the function constructs a `MongoClient` and
pings it, catching only `ConnectionFailure` (printing, resetting `client` to
`None` and returning `None`). Any other exception propagates uncaught: one
raised by the ping leaves the already-assigned client in place, one raised by
the constructor happens before the assignment completes, so `client` stays
`None`. -/
def get_mongo_collection (client : Option Nat) (env : Env) : GetCollOut :=
  match client with
  | some h => { result := .ok (some ()), client := some h, pinged := false }
  | none =>
    match env.createOutcome with
    | .raise .connectionFailure _ =>
        { result := .ok none, client := none, pinged := false }
    | .raise .other msg =>
        { result := .error msg, client := none, pinged := false }
    | .ok =>
      match env.pingOutcome with
      | .ok =>
          { result := .ok (some ()), client := some env.newHandle, pinged := true }
      | .raise .connectionFailure _ =>
          { result := .ok none, client := none, pinged := true }
      | .raise .other msg =>
          { result := .error msg, client := some env.newHandle, pinged := true }

/-- An HTTP response body: a JSON object as produced by `jsonify` (every body
in this app is a flat object of string values, kept in dictionary insertion
order) or a rendered HTML page. -/
inductive Body
  | jsonBody (fields : List (String × String))
  | htmlBody (page : String)
  deriving DecidableEq, Repr

/-- An HTTP response: status code and body. -/
structure HttpResponse where
  status : Nat
  body : Body
  deriving DecidableEq, Repr

/-- `jsonify({"status": "error", "message": msg})`. -/
def jsonError (msg : String) : Body :=
  .jsonBody [("status", "error"), ("message", msg)]

/-- The fixed dictionary returned by `api_route`. -/
def apiData : List (String × String) :=
  [("message", "API response from merged branches!"),
   ("version", "1.1"),
   ("source_branch", "initial_commit"),
   ("status_new_branch", "updated"),
   ("status_main_branch", "modified")]

/-- Outcome of serving one request: the response (or an exception that escaped
the handler, carried as `.error` with its text), the new value of the global
`client`, the new store state, and whether the `ismaster` ping ran. -/
structure HandlerOut where
  response : Except String HttpResponse
  client : Option Nat
  store : Store
  pinged : Bool
  deriving DecidableEq, Repr

/-- The text of `templates/index.html`. The template file is outside the
embedded source; no claim depends on its content, only on it being served
unchanged. -/
def indexHtml : String := "index.html"

/-- `home()`: `GET /` renders the static template; no state is read or
written. -/
def home (client : Option Nat) (store : Store) : HandlerOut :=
  { response := .ok ⟨200, .htmlBody indexHtml⟩, client := client, store := store,
    pinged := false }

/-- `api_route()`: `GET /api` returns the fixed five-key JSON object; no state
is read or written. -/
def api_route (client : Option Nat) (store : Store) : HandlerOut :=
  { response := .ok ⟨200, .jsonBody apiData⟩, client := client, store := store,
    pinged := false }

/-- The BSON value stored for a form field put into the inserted dictionary:
a Python string is stored as a string, Python `None` is stored as BSON null
(the key is still present in the document). -/
def bsonOfOpt : Option String → BValue
  | some s => .str s
  | none => .null

/-- `submit_todo_item()` from `app.py`: read `itemName` and `itemDescription`
from the form; reject with 400 if `itemName` is falsy; obtain the collection
(500 if `None`, an exception from `get_mongo_collection` propagates since that
call is outside the `try`); build the item dictionary with the current time,
insert it, and answer 201 with the assigned id rendered by `str`; any exception
raised inside the `try` is caught and answered with 500 and its text. A failed
`insert_one` persists nothing (single-document insert is atomic). -/
def submit_todo_item (client : Option Nat) (store : Store) (form : Form)
    (env : Env) : HandlerOut :=
  let item_name := form.itemName
  let item_description := form.itemDescription
  if pyFalsy item_name then
    { response := .ok ⟨400, jsonError "Item Name is required"⟩,
      client := client, store := store, pinged := false }
  else
    let g := get_mongo_collection client env
    match g.result with
    | .error msg =>
        { response := .error msg, client := g.client, store := store,
          pinged := g.pinged }
    | .ok none =>
        { response := .ok ⟨500, jsonError "Failed to connect to database"⟩,
          client := g.client, store := store, pinged := g.pinged }
    | .ok (some _) =>
      match env.insertOutcome with
      | .raise _ msg =>
          { response := .ok ⟨500,
              jsonError ("An error occurred during submission: " ++ msg)⟩,
            client := g.client, store := store, pinged := g.pinged }
      | .ok =>
          { response := .ok ⟨201, .jsonBody
              [("status", "success"),
               ("message", "To-Do item added successfully!"),
               ("item_id", toString store.nextId)]⟩,
            client := g.client,
            store := ⟨store.docs ++
              [⟨store.nextId,
                [("itemName", .str (item_name.getD "")),
                 ("itemDescription", bsonOfOpt item_description),
                 ("timestamp", .time env.now)]⟩], store.nextId + 1⟩,
            pinged := g.pinged }

/-- One HTTP request to the application. -/
inductive Request
  | getHome
  | getApi
  | postSubmit (form : Form)
  deriving DecidableEq, Repr

/-- Dispatch one request against the current server state. -/
def step (client : Option Nat) (store : Store) : Request → Env → HandlerOut
  | .getHome, _ => home client store
  | .getApi, _ => api_route client store
  | .postSubmit f, env => submit_todo_item client store f env

/-- Serve a list of requests starting from a given state, threading the global
`client` and the store. -/
def runFrom (st : Option Nat × Store) : List (Request × Env) → Option Nat × Store
  | [] => st
  | (r, e) :: rest =>
      let o := step st.1 st.2 r e
      runFrom (o.client, o.store) rest

/-- Server state after serving a list of requests from process start
(`client = None`, empty collection). -/
def run (rs : List (Request × Env)) : Option Nat × Store :=
  runFrom (none, initStore) rs

/-- The HTTP status of a request outcome, `none` when an exception escaped. -/
def statusOf (o : HandlerOut) : Option Nat :=
  match o.response with
  | .ok r => some r.status
  | .error _ => none

/-- The `item_id` string of a JSON response body, when present. -/
def itemIdOf (o : HandlerOut) : Option String :=
  match o.response with
  | .ok ⟨_, .jsonBody fs⟩ => fs.lookup "item_id"
  | _ => none

/-- Trace of a sequence of POSTs to `/submittodoitem`: the outcome of each
request in order, threading the state. -/
def postsTrace (st : Option Nat × Store) : List (Form × Env) → List HandlerOut
  | [] => []
  | (f, e) :: rest =>
      let o := submit_todo_item st.1 st.2 f e
      o :: postsTrace (o.client, o.store) rest

/-- Final state after a sequence of POSTs to `/submittodoitem`. -/
def postsFinal (st : Option Nat × Store) : List (Form × Env) → Option Nat × Store
  | [] => st
  | (f, e) :: rest =>
      let o := submit_todo_item st.1 st.2 f e
      postsFinal (o.client, o.store) rest

/-- The timestamp field of a persisted document, when present. -/
def tsOf (d : StoredDoc) : Option Nat :=
  match d.fields.lookup "timestamp" with
  | some (.time t) => some t
  | _ => none

/-- The timestamps of a list of persisted documents, in store order. -/
def timestamps (docs : List StoredDoc) : List Nat := docs.filterMap tsOf

/-- A well-formed persisted record: a non-empty `itemName` and a
server-assigned `timestamp`. -/
def goodDoc (d : StoredDoc) : Prop :=
  (∃ s, s ≠ "" ∧ ("itemName", BValue.str s) ∈ d.fields) ∧
  (∃ t, ("timestamp", BValue.time t) ∈ d.fields)

/-- The documents a run of successful POSTs appends: one per request, ids
assigned consecutively from `n`, timestamps read from each request's clock. -/
def buildDocs : Nat → List (Form × Env) → List StoredDoc
  | _, [] => []
  | n, (f, e) :: rest =>
      ⟨n, [("itemName", .str (f.itemName.getD "")),
           ("itemDescription", bsonOfOpt f.itemDescription),
           ("timestamp", .time e.now)]⟩ :: buildDocs (n + 1) rest

/-! ### Decimal rendering of identifiers

`str(result.inserted_id)` is modelled as `toString` on the identifier, which
is `Nat.repr`. The claims need that this rendering is injective (distinct ids
give distinct `item_id` strings) and never empty. -/

lemma toDigitsCore_eq_digits :
    ∀ (f n : Nat) (l : List Char), n < f → 0 < n →
      Nat.toDigitsCore 10 f n l = ((Nat.digits 10 n).map Nat.digitChar).reverse ++ l := by
  intro f
  induction f with
  | zero => intro n l hn _; omega
  | succ f ih =>
    intro n l hn hpos
    rw [Nat.toDigitsCore]
    by_cases hq : n / 10 = 0
    · simp only [hq, if_pos]
      rw [Nat.digits_def' (by norm_num : (1:ℕ) < 10) hpos, hq, Nat.digits_zero]
      simp
    · simp only [hq, if_neg, if_false]
      have hlt : n / 10 < f :=
        Nat.lt_of_lt_of_le (Nat.div_lt_self hpos (by norm_num)) (Nat.lt_succ_iff.mp hn)
      rw [ih (n / 10) (Nat.digitChar (n % 10) :: l) hlt (Nat.pos_of_ne_zero hq),
        Nat.digits_def' (by norm_num : (1:ℕ) < 10) hpos]
      simp [List.reverse_cons, List.append_assoc]

lemma toDigits_ten_eq (n : Nat) :
    Nat.toDigits 10 n =
      if n = 0 then ['0'] else ((Nat.digits 10 n).map Nat.digitChar).reverse := by
  by_cases h : n = 0
  · subst h; rfl
  · rw [if_neg h, Nat.toDigits,
      toDigitsCore_eq_digits (n + 1) n [] (Nat.lt_succ_self n) (Nat.pos_of_ne_zero h)]
    simp

lemma digitChar_inj_lt : ∀ a < 10, ∀ b < 10, Nat.digitChar a = Nat.digitChar b → a = b := by
  decide

lemma map_digitChar_cancel :
    ∀ (xs ys : List Nat), (∀ x ∈ xs, x < 10) → (∀ y ∈ ys, y < 10) →
      xs.map Nat.digitChar = ys.map Nat.digitChar → xs = ys := by
  intro xs
  induction xs with
  | nil => intro ys _ _ h; cases ys <;> simp_all
  | cons x xs ih =>
    intro ys hx hy h
    cases ys with
    | nil => simp at h
    | cons y ys =>
      simp only [List.map_cons, List.cons.injEq] at h
      have hxy : x = y :=
        digitChar_inj_lt x (hx x (by simp)) y (hy y (by simp)) h.1
      have : xs = ys :=
        ih ys (fun a ha => hx a (by simp [ha])) (fun a ha => hy a (by simp [ha])) h.2
      simp [hxy, this]

lemma digits_ten_eq_of_toDigits_eq {m n : Nat}
    (h : Nat.toDigits 10 m = Nat.toDigits 10 n) : Nat.digits 10 m = Nat.digits 10 n := by
  rw [toDigits_ten_eq, toDigits_ten_eq] at h
  by_cases hm : m = 0 <;> by_cases hn : n = 0
  · simp [hm, hn]
  · exfalso
    rw [if_pos hm, if_neg hn] at h
    have h2 : (Nat.digits 10 n).map Nat.digitChar = ['0'] := by
      have := congrArg List.reverse h
      simpa using this.symm
    have h3 : Nat.digits 10 n = [0] := by
      apply map_digitChar_cancel _ [0]
        (fun d hd => Nat.digits_lt_base (by norm_num) hd) (by simp)
      simpa using h2
    have : n = 0 := by
      have h4 := Nat.ofDigits_digits 10 n
      rw [h3] at h4
      simpa [Nat.ofDigits] using h4.symm
    exact hn this
  · exfalso
    rw [if_neg hm, if_pos hn] at h
    have h2 : (Nat.digits 10 m).map Nat.digitChar = ['0'] := by
      have := congrArg List.reverse h
      simpa using this
    have h3 : Nat.digits 10 m = [0] := by
      apply map_digitChar_cancel _ [0]
        (fun d hd => Nat.digits_lt_base (by norm_num) hd) (by simp)
      simpa using h2
    have : m = 0 := by
      have h4 := Nat.ofDigits_digits 10 m
      rw [h3] at h4
      simpa [Nat.ofDigits] using h4.symm
    exact hm this
  · rw [if_neg hm, if_neg hn] at h
    have h2 := congrArg List.reverse h
    simp only [List.reverse_reverse] at h2
    exact map_digitChar_cancel _ _
      (fun d hd => Nat.digits_lt_base (by norm_num) hd)
      (fun d hd => Nat.digits_lt_base (by norm_num) hd) h2

/-- `Nat.repr` (hence `toString` on ids) is injective: distinct store-assigned
identifiers render as distinct `item_id` strings. -/
lemma nat_repr_injective : Function.Injective Nat.repr := by
  intro m n h
  have hch : Nat.toDigits 10 m = Nat.toDigits 10 n := congrArg String.data h
  have hd := digits_ten_eq_of_toDigits_eq hch
  have h1 := Nat.ofDigits_digits 10 m
  have h2 := Nat.ofDigits_digits 10 n
  rw [hd] at h1
  exact h1.symm.trans h2

/-- A non-empty string is truthy in Python. -/
lemma pyFalsy_some_of_ne (s : String) (hs : s ≠ "") : pyFalsy (some s) = false := by
  simp only [pyFalsy]
  exact Bool.eq_false_iff.mpr fun hh => hs ((String.isEmpty_iff s).mp hh)

/-- Evaluation of `submit_todo_item` on the success path: non-empty name,
available collection, successful insert. -/
lemma submit_success_eq (client : Option Nat) (store : Store) (s : String)
    (desc : Option String) (env : Env) (hs : s ≠ "")
    (hav : (get_mongo_collection client env).result = .ok (some ()))
    (hins : env.insertOutcome = .ok) :
    submit_todo_item client store ⟨some s, desc⟩ env =
      { response := .ok ⟨201, .jsonBody
          [("status", "success"),
           ("message", "To-Do item added successfully!"),
           ("item_id", toString store.nextId)]⟩,
        client := (get_mongo_collection client env).client,
        store := ⟨store.docs ++
          [⟨store.nextId,
            [("itemName", .str s),
             ("itemDescription", bsonOfOpt desc),
             ("timestamp", .time env.now)]⟩], store.nextId + 1⟩,
        pinged := (get_mongo_collection client env).pinged } := by
  unfold submit_todo_item
  simp only [pyFalsy_some_of_ne s hs, Bool.false_eq_true, if_false, hav, hins,
    Option.getD_some]

/-- `Nat.repr` (hence the rendered `item_id`) is never the empty string. -/
lemma nat_repr_ne_empty (n : Nat) : Nat.repr n ≠ "" := by
  intro h
  have hdata : Nat.toDigits 10 n = [] := congrArg String.data h
  rw [toDigits_ten_eq] at hdata
  by_cases hn : n = 0
  · rw [if_pos hn] at hdata; simp at hdata
  · rw [if_neg hn] at hdata
    have hnil : Nat.digits 10 n = [] := by
      have := congrArg List.reverse hdata
      simpa using this
    exact Nat.digits_ne_nil_iff_ne_zero.mpr hn hnil

/-! ### Claim theorems -/

/-- C1: a POST to `/submittodoitem` with a non-empty `itemName`, an available
storage handle and a successful insert builds a record with that `itemName`,
the submitted `itemDescription` and the current server time, appends exactly
that one record to the store, and answers 201 with
`{"status":"success","message":"To-Do item added successfully!","item_id":
<assigned id as text>}`, the `item_id` being non-empty. -/
theorem c1_submit_success_inserts_and_responds_201
    (client : Option Nat) (store : Store) (s : String) (desc : Option String)
    (env : Env) (hs : s ≠ "")
    (hav : (get_mongo_collection client env).result = .ok (some ()))
    (hins : env.insertOutcome = .ok) :
    (submit_todo_item client store ⟨some s, desc⟩ env).response =
      .ok ⟨201, .jsonBody
        [("status", "success"),
         ("message", "To-Do item added successfully!"),
         ("item_id", toString store.nextId)]⟩ ∧
    (submit_todo_item client store ⟨some s, desc⟩ env).store.docs =
      store.docs ++
        [⟨store.nextId,
          [("itemName", .str s),
           ("itemDescription", bsonOfOpt desc),
           ("timestamp", .time env.now)]⟩] ∧
    toString store.nextId ≠ "" := by
  rw [submit_success_eq client store s desc env hs hav hins]
  exact ⟨rfl, rfl, nat_repr_ne_empty store.nextId⟩

theorem c1_witness :
    ("Buy milk" ≠ "" ∧
      (get_mongo_collection none ⟨.ok, .ok, .ok, 7, 5⟩).result = .ok (some ()) ∧
      Env.insertOutcome ⟨.ok, .ok, .ok, 7, 5⟩ = .ok) ∧
    ((submit_todo_item none initStore ⟨some "Buy milk", none⟩
        ⟨.ok, .ok, .ok, 7, 5⟩).response =
      .ok ⟨201, .jsonBody
        [("status", "success"),
         ("message", "To-Do item added successfully!"),
         ("item_id", toString initStore.nextId)]⟩ ∧
    (submit_todo_item none initStore ⟨some "Buy milk", none⟩
        ⟨.ok, .ok, .ok, 7, 5⟩).store.docs =
      initStore.docs ++
        [⟨initStore.nextId,
          [("itemName", .str "Buy milk"),
           ("itemDescription", bsonOfOpt none),
           ("timestamp", .time (Env.now ⟨.ok, .ok, .ok, 7, 5⟩))]⟩] ∧
    toString initStore.nextId ≠ "") :=
  ⟨⟨by decide, by decide, by decide⟩,
    c1_submit_success_inserts_and_responds_201 none initStore "Buy milk" none
      ⟨.ok, .ok, .ok, 7, 5⟩ (by decide) (by decide) (by decide)⟩

/-- C2: a POST to `/submittodoitem` whose `itemName` is missing or the empty
string answers 400 with `{"status":"error","message":"Item Name is required"}`
and leaves the store unchanged. -/
theorem c2_missing_name_rejected_400
    (client : Option Nat) (store : Store) (form : Form) (env : Env)
    (h : form.itemName = none ∨ form.itemName = some "") :
    (submit_todo_item client store form env).response =
      .ok ⟨400, .jsonBody [("status", "error"), ("message", "Item Name is required")]⟩ ∧
    (submit_todo_item client store form env).store = store := by
  have hb : pyFalsy form.itemName = true := by
    rcases h with h | h
    · simp [h, pyFalsy]
    · rw [h]
      decide
  unfold submit_todo_item
  simp only [hb, if_true]
  exact ⟨by trivial, by trivial⟩

theorem c2_witness :
    ((Form.itemName ⟨none, some "d"⟩ = none ∨ Form.itemName ⟨none, some "d"⟩ = some "") ∧
      (submit_todo_item (some 3) ⟨[], 4⟩ ⟨none, some "d"⟩ ⟨.ok, .ok, .ok, 7, 5⟩).response =
        .ok ⟨400, .jsonBody [("status", "error"), ("message", "Item Name is required")]⟩ ∧
      (submit_todo_item (some 3) ⟨[], 4⟩ ⟨none, some "d"⟩ ⟨.ok, .ok, .ok, 7, 5⟩).store =
        ⟨[], 4⟩) :=
  ⟨Or.inl rfl,
    (c2_missing_name_rejected_400 (some 3) ⟨[], 4⟩ ⟨none, some "d"⟩
      ⟨.ok, .ok, .ok, 7, 5⟩ (Or.inl rfl)).1,
    (c2_missing_name_rejected_400 (some 3) ⟨[], 4⟩ ⟨none, some "d"⟩
      ⟨.ok, .ok, .ok, 7, 5⟩ (Or.inl rfl)).2⟩

/-- C4: with a non-empty `itemName` and an available storage handle, an
exception of any class raised by `insert_one` is caught and answered with 500
and `"An error occurred during submission: "` followed by the exception's
text; the response is a normal return (nothing re-raised) and the store is
unchanged (no partial record). -/
theorem c4_insert_exception_caught_500
    (client : Option Nat) (store : Store) (s : String) (desc : Option String)
    (env : Env) (cls : ExcClass) (msg : String) (hs : s ≠ "")
    (hav : (get_mongo_collection client env).result = .ok (some ()))
    (hins : env.insertOutcome = .raise cls msg) :
    (submit_todo_item client store ⟨some s, desc⟩ env).response =
      .ok ⟨500, .jsonBody
        [("status", "error"),
         ("message", "An error occurred during submission: " ++ msg)]⟩ ∧
    (submit_todo_item client store ⟨some s, desc⟩ env).store = store := by
  unfold submit_todo_item
  simp only [pyFalsy_some_of_ne s hs, Bool.false_eq_true, if_false, hav, hins]
  exact ⟨by trivial, by trivial⟩

theorem c4_witness :
    ("x" ≠ "" ∧
      (get_mongo_collection (some 3) ⟨.ok, .ok, .raise .other "ins", 7, 5⟩).result =
        .ok (some ()) ∧
      Env.insertOutcome ⟨.ok, .ok, .raise .other "ins", 7, 5⟩ = .raise .other "ins") ∧
    ((submit_todo_item (some 3) ⟨[], 4⟩ ⟨some "x", none⟩
        ⟨.ok, .ok, .raise .other "ins", 7, 5⟩).response =
      .ok ⟨500, .jsonBody
        [("status", "error"),
         ("message", "An error occurred during submission: " ++ "ins")]⟩ ∧
    (submit_todo_item (some 3) ⟨[], 4⟩ ⟨some "x", none⟩
        ⟨.ok, .ok, .raise .other "ins", 7, 5⟩).store = ⟨[], 4⟩) :=
  ⟨⟨by decide, by decide, by decide⟩,
    c4_insert_exception_caught_500 (some 3) ⟨[], 4⟩ "x" none
      ⟨.ok, .ok, .raise .other "ins", 7, 5⟩ .other "ins" (by decide) (by decide)
      (by decide)⟩

/-- C8: validation of `itemName` is a presence check only — every non-empty
string, a whitespace-only one included, passes the check, and the value is
persisted verbatim in the stored record. -/
theorem c8_presence_check_only (s : String) (hs : s ≠ "") :
    pyFalsy (some s) = false ∧
    ∀ (client : Option Nat) (store : Store) (desc : Option String) (env : Env),
      (get_mongo_collection client env).result = .ok (some ()) →
      env.insertOutcome = .ok →
      (submit_todo_item client store ⟨some s, desc⟩ env).store.docs =
        store.docs ++
          [⟨store.nextId,
            [("itemName", .str s),
             ("itemDescription", bsonOfOpt desc),
             ("timestamp", .time env.now)]⟩] := by
  refine ⟨pyFalsy_some_of_ne s hs, fun client store desc env hav hins => ?_⟩
  rw [submit_success_eq client store s desc env hs hav hins]

theorem c8_witness :
    (" " ≠ "") ∧
    (pyFalsy (some " ") = false ∧
      ∀ (client : Option Nat) (store : Store) (desc : Option String) (env : Env),
        (get_mongo_collection client env).result = .ok (some ()) →
        env.insertOutcome = .ok →
        (submit_todo_item client store ⟨some " ", desc⟩ env).store.docs =
          store.docs ++
            [⟨store.nextId,
              [("itemName", .str " "),
               ("itemDescription", bsonOfOpt desc),
               ("timestamp", .time env.now)]⟩]) :=
  ⟨by decide, c8_presence_check_only " " (by decide)⟩

/-- C5: in every reachable server state — after any sequence of prior requests,
POSTs included — a `GET /api` answers 200 with the fixed five-key JSON object,
and changes neither the store nor the client. -/
theorem c5_api_fixed_json (rs : List (Request × Env)) (e : Env) :
    (step (run rs).1 (run rs).2 .getApi e).response =
      .ok ⟨200, .jsonBody
        [("message", "API response from merged branches!"),
         ("version", "1.1"),
         ("source_branch", "initial_commit"),
         ("status_new_branch", "updated"),
         ("status_main_branch", "modified")]⟩ ∧
    (step (run rs).1 (run rs).2 .getApi e).store = (run rs).2 ∧
    (step (run rs).1 (run rs).2 .getApi e).client = (run rs).1 :=
  ⟨rfl, rfl, rfl⟩

/-- C3: with a non-empty `itemName`, an uninitialized client and a
creation-time ping that raises `ConnectionFailure`, the handler resets the
client to `None`, answers 500 with
`{"status":"error","message":"Failed to connect to database"}` and inserts
nothing; the next request attempts creation from scratch (its ping runs
again); conversely a successfully created client is reused by every later
request with no further ping. -/
theorem c3_ping_failure_resets_client_and_500
    (store : Store) (s : String) (desc : Option String) (env : Env)
    (msg : String) (hs : s ≠ "")
    (hcreate : env.createOutcome = .ok)
    (hping : env.pingOutcome = .raise .connectionFailure msg) :
    ((submit_todo_item none store ⟨some s, desc⟩ env).response =
        .ok ⟨500, .jsonBody
          [("status", "error"), ("message", "Failed to connect to database")]⟩ ∧
      (submit_todo_item none store ⟨some s, desc⟩ env).client = none ∧
      (submit_todo_item none store ⟨some s, desc⟩ env).store = store) ∧
    (∀ env2 : Env, env2.createOutcome = .ok →
      (get_mongo_collection (submit_todo_item none store ⟨some s, desc⟩ env).client
        env2).pinged = true) ∧
    (∀ (h : Nat) (env3 : Env),
      get_mongo_collection (some h) env3 =
        { result := .ok (some ()), client := some h, pinged := false }) := by
  have hg : get_mongo_collection none env =
      { result := .ok none, client := none, pinged := true } := by
    unfold get_mongo_collection
    rw [hcreate, hping]
  have hsub : submit_todo_item none store ⟨some s, desc⟩ env =
      { response := .ok ⟨500, jsonError "Failed to connect to database"⟩,
        client := none, store := store, pinged := true } := by
    unfold submit_todo_item
    simp only [pyFalsy_some_of_ne s hs, Bool.false_eq_true, if_false, hg]
  refine ⟨⟨by rw [hsub]; rfl, by rw [hsub], by rw [hsub]⟩, ?_, fun h env3 => rfl⟩
  intro env2 hc2
  rw [hsub]
  unfold get_mongo_collection
  rw [hc2]
  cases hp : env2.pingOutcome with
  | ok => rfl
  | raise cls m => cases cls <;> rfl

theorem c3_witness :
    ("x" ≠ "" ∧
      Env.createOutcome ⟨.ok, .raise .connectionFailure "cf", .ok, 7, 5⟩ = .ok ∧
      Env.pingOutcome ⟨.ok, .raise .connectionFailure "cf", .ok, 7, 5⟩ =
        .raise .connectionFailure "cf") ∧
    (((submit_todo_item none initStore ⟨some "x", none⟩
          ⟨.ok, .raise .connectionFailure "cf", .ok, 7, 5⟩).response =
        .ok ⟨500, .jsonBody
          [("status", "error"), ("message", "Failed to connect to database")]⟩ ∧
      (submit_todo_item none initStore ⟨some "x", none⟩
          ⟨.ok, .raise .connectionFailure "cf", .ok, 7, 5⟩).client = none ∧
      (submit_todo_item none initStore ⟨some "x", none⟩
          ⟨.ok, .raise .connectionFailure "cf", .ok, 7, 5⟩).store = initStore) ∧
    (∀ env2 : Env, env2.createOutcome = .ok →
      (get_mongo_collection
        (submit_todo_item none initStore ⟨some "x", none⟩
          ⟨.ok, .raise .connectionFailure "cf", .ok, 7, 5⟩).client env2).pinged = true) ∧
    (∀ (h : Nat) (env3 : Env),
      get_mongo_collection (some h) env3 =
        { result := .ok (some ()), client := some h, pinged := false })) :=
  ⟨⟨by decide, by decide, by decide⟩,
    c3_ping_failure_resets_client_and_500 initStore "x" none
      ⟨.ok, .raise .connectionFailure "cf", .ok, 7, 5⟩ "cf" (by decide) (by decide)
      (by decide)⟩

/-- C9 counterexample: a successful POST that submits no `itemDescription`
persists a record whose `itemDescription` key is present with BSON null — the
key is not absent, contrary to the claim. -/
theorem c9_counterexample :
    statusOf (submit_todo_item none initStore ⟨some "Buy milk", none⟩
        ⟨.ok, .ok, .ok, 7, 5⟩) = some 201 ∧
    (submit_todo_item none initStore ⟨some "Buy milk", none⟩
        ⟨.ok, .ok, .ok, 7, 5⟩).store.docs =
      [⟨0, [("itemName", .str "Buy milk"),
            ("itemDescription", .null),
            ("timestamp", .time 5)]⟩] ∧
    ¬ ∀ d ∈ (submit_todo_item none initStore ⟨some "Buy milk", none⟩
        ⟨.ok, .ok, .ok, 7, 5⟩).store.docs,
        "itemDescription" ∉ d.fields.map Prod.fst := by
  refine ⟨by decide, by decide, ?_⟩
  intro hall
  exact hall ⟨0, [("itemName", .str "Buy milk"), ("itemDescription", .null),
    ("timestamp", .time 5)]⟩ (by decide) (by decide)

/-- C9 as amended: every record persisted by a successful POST has exactly the
shape `{itemName: text, itemDescription: <submitted text, or BSON null when
the field was not submitted>, timestamp: datetime}` plus the store-assigned
identifier; in particular, when `itemDescription` is not submitted the key is
still present, holding null. -/
theorem c9_record_shape_description_null
    (client : Option Nat) (store : Store) (s : String) (desc : Option String)
    (env : Env) (hs : s ≠ "")
    (hav : (get_mongo_collection client env).result = .ok (some ()))
    (hins : env.insertOutcome = .ok) :
    (submit_todo_item client store ⟨some s, desc⟩ env).store.docs =
      store.docs ++
        [⟨store.nextId,
          [("itemName", .str s),
           ("itemDescription", bsonOfOpt desc),
           ("timestamp", .time env.now)]⟩] ∧
    (desc = none →
      ("itemDescription", BValue.null) ∈
        [("itemName", BValue.str s), ("itemDescription", bsonOfOpt desc),
         ("timestamp", BValue.time env.now)]) := by
  rw [submit_success_eq client store s desc env hs hav hins]
  exact ⟨rfl, fun hd => by rw [hd]; exact List.mem_cons_of_mem _ (List.mem_cons_self _ _)⟩

theorem c9_witness :
    ("a" ≠ "" ∧
      (get_mongo_collection (some 3) ⟨.ok, .ok, .ok, 7, 5⟩).result = .ok (some ()) ∧
      Env.insertOutcome ⟨.ok, .ok, .ok, 7, 5⟩ = .ok) ∧
    ((submit_todo_item (some 3) initStore ⟨some "a", none⟩
        ⟨.ok, .ok, .ok, 7, 5⟩).store.docs =
      initStore.docs ++
        [⟨initStore.nextId,
          [("itemName", .str "a"),
           ("itemDescription", bsonOfOpt none),
           ("timestamp", .time (Env.now ⟨.ok, .ok, .ok, 7, 5⟩))]⟩] ∧
    ((none : Option String) = none →
      ("itemDescription", BValue.null) ∈
        [("itemName", BValue.str "a"), ("itemDescription", bsonOfOpt none),
         ("timestamp", BValue.time (Env.now ⟨.ok, .ok, .ok, 7, 5⟩))])) :=
  ⟨⟨by decide, by decide, by decide⟩,
    c9_record_shape_description_null (some 3) initStore "a" none
      ⟨.ok, .ok, .ok, 7, 5⟩ (by decide) (by decide) (by decide)⟩

/-- C10 counterexample: when the `MongoClient` constructor itself raises a
non-`ConnectionFailure` exception, the exception does propagate uncaught, but
the global client does NOT remain assigned to an unverified handle — the
assignment never completed, `client` stays `None`, and the next request
retries creation (its ping runs), contrary to the claim's universal
"remains assigned … reused without any retry". -/
theorem c10_counterexample :
    (submit_todo_item none initStore ⟨some "a", none⟩
        ⟨.raise .other "boom", .ok, .ok, 7, 5⟩).response = .error "boom" ∧
    ¬ (∃ h : Nat, (submit_todo_item none initStore ⟨some "a", none⟩
        ⟨.raise .other "boom", .ok, .ok, 7, 5⟩).client = some h) ∧
    (get_mongo_collection (submit_todo_item none initStore ⟨some "a", none⟩
        ⟨.raise .other "boom", .ok, .ok, 7, 5⟩).client
      ⟨.ok, .ok, .ok, 8, 6⟩).pinged = true := by
  refine ⟨by decide, ?_, by decide⟩
  rintro ⟨h, hh⟩
  have hc : (submit_todo_item none initStore ⟨some "a", none⟩
      ⟨.raise .other "boom", .ok, .ok, 7, 5⟩).client = (none : Option Nat) := by decide
  rw [hc] at hh
  exact Option.noConfusion hh

/-- C10 as amended: during handle creation only `ConnectionFailure` is caught
and converted into the handle-unavailable outcome; any other exception
propagates uncaught out of `get_mongo_collection` and out of the POST handler.
If it is raised by the creation-time ping, the process-wide client remains
assigned to the unverified handle, which later requests reuse with no retry
of creation and no ping; if it is raised by the `MongoClient` constructor
itself, the client remains unset and the next request retries creation. -/
theorem c10_only_connectionfailure_caught
    (store : Store) (form : Form) (s : String)
    (hname : form.itemName = some s) (hs : s ≠ "") :
    (∀ (env : Env) (msg : String),
      env.createOutcome = .ok → env.pingOutcome = .raise .other msg →
      (submit_todo_item none store form env).response = .error msg ∧
      (submit_todo_item none store form env).client = some env.newHandle ∧
      (submit_todo_item none store form env).store = store ∧
      ∀ env2 : Env, get_mongo_collection (some env.newHandle) env2 =
        { result := .ok (some ()), client := some env.newHandle, pinged := false }) ∧
    (∀ (env : Env) (msg : String),
      env.createOutcome = .raise .other msg →
      (submit_todo_item none store form env).response = .error msg ∧
      (submit_todo_item none store form env).client = none ∧
      (submit_todo_item none store form env).store = store) ∧
    (∀ (env : Env) (msg : String),
      env.createOutcome = .raise .connectionFailure msg ∨
        (env.createOutcome = .ok ∧ env.pingOutcome = .raise .connectionFailure msg) →
      (get_mongo_collection none env).result = .ok none ∧
      (get_mongo_collection none env).client = none) := by
  have hb : pyFalsy form.itemName = false := by
    rw [hname]; exact pyFalsy_some_of_ne s hs
  refine ⟨fun env msg hc hp => ?_, fun env msg hc => ?_, fun env msg hcp => ?_⟩
  · have hg : get_mongo_collection none env =
        { result := .error msg, client := some env.newHandle, pinged := true } := by
      unfold get_mongo_collection
      rw [hc, hp]
    have hsub : submit_todo_item none store form env =
        { response := .error msg, client := some env.newHandle, store := store,
          pinged := true } := by
      unfold submit_todo_item
      simp only [hb, Bool.false_eq_true, if_false, hg]
    exact ⟨by rw [hsub], by rw [hsub], by rw [hsub], fun env2 => rfl⟩
  · have hg : get_mongo_collection none env =
        { result := .error msg, client := none, pinged := false } := by
      unfold get_mongo_collection
      rw [hc]
    have hsub : submit_todo_item none store form env =
        { response := .error msg, client := none, store := store,
          pinged := false } := by
      unfold submit_todo_item
      simp only [hb, Bool.false_eq_true, if_false, hg]
    exact ⟨by rw [hsub], by rw [hsub], by rw [hsub]⟩
  · rcases hcp with hc | ⟨hc, hp⟩
    · unfold get_mongo_collection
      rw [hc]
      exact ⟨rfl, rfl⟩
    · unfold get_mongo_collection
      rw [hc, hp]
      exact ⟨rfl, rfl⟩

theorem c10_witness :
    (Form.itemName ⟨some "a", none⟩ = some "a" ∧ "a" ≠ "") ∧
    ((∀ (env : Env) (msg : String),
      env.createOutcome = .ok → env.pingOutcome = .raise .other msg →
      (submit_todo_item none initStore ⟨some "a", none⟩ env).response = .error msg ∧
      (submit_todo_item none initStore ⟨some "a", none⟩ env).client =
        some env.newHandle ∧
      (submit_todo_item none initStore ⟨some "a", none⟩ env).store = initStore ∧
      ∀ env2 : Env, get_mongo_collection (some env.newHandle) env2 =
        { result := .ok (some ()), client := some env.newHandle, pinged := false }) ∧
    (∀ (env : Env) (msg : String),
      env.createOutcome = .raise .other msg →
      (submit_todo_item none initStore ⟨some "a", none⟩ env).response = .error msg ∧
      (submit_todo_item none initStore ⟨some "a", none⟩ env).client = none ∧
      (submit_todo_item none initStore ⟨some "a", none⟩ env).store = initStore) ∧
    (∀ (env : Env) (msg : String),
      env.createOutcome = .raise .connectionFailure msg ∨
        (env.createOutcome = .ok ∧ env.pingOutcome = .raise .connectionFailure msg) →
      (get_mongo_collection none env).result = .ok none ∧
      (get_mongo_collection none env).client = none)) :=
  ⟨⟨rfl, by decide⟩,
    c10_only_connectionfailure_caught initStore ⟨some "a", none⟩ "a" rfl (by decide)⟩

/-! ### Run lemmas for the invariant and sequence claims -/

lemma runFrom_append (st : Option Nat × Store) (l1 l2 : List (Request × Env)) :
    runFrom st (l1 ++ l2) = runFrom (runFrom st l1) l2 := by
  induction l1 generalizing st with
  | nil => rfl
  | cons x l1 ih =>
    cases x with
    | mk r e => simp only [List.cons_append, runFrom]; exact ih _

/-- A falsy `itemName` is either absent or an empty string; a non-falsy one is
a present non-empty string. -/
lemma not_falsy_iff (o : Option String) :
    pyFalsy o = false ↔ ∃ s, o = some s ∧ s ≠ "" := by
  cases o with
  | none => simp [pyFalsy]
  | some s =>
    constructor
    · intro h
      refine ⟨s, rfl, fun hse => ?_⟩
      rw [hse] at h
      exact absurd h (by decide)
    · rintro ⟨t, ht, hs⟩
      cases ht
      exact pyFalsy_some_of_ne _ hs

/-- Each request either leaves the store untouched or appends exactly one
well-formed document, whose id is the store's counter, which increments. -/
lemma step_store_cases (c : Option Nat) (st : Store) (r : Request) (e : Env) :
    (step c st r e).store = st ∨
    ∃ d, goodDoc d ∧ d.id = st.nextId ∧
      (step c st r e).store = ⟨st.docs ++ [d], st.nextId + 1⟩ := by
  cases r with
  | getHome => exact Or.inl rfl
  | getApi => exact Or.inl rfl
  | postSubmit f =>
    show (submit_todo_item c st f e).store = st ∨
      ∃ d, goodDoc d ∧ d.id = st.nextId ∧
        (submit_todo_item c st f e).store = ⟨st.docs ++ [d], st.nextId + 1⟩
    simp only [submit_todo_item]
    cases hb : pyFalsy f.itemName with
    | true => exact Or.inl rfl
    | false =>
      obtain ⟨s, hsome, hs⟩ := (not_falsy_iff f.itemName).mp hb
      simp only [Bool.false_eq_true, if_false]
      cases hr : (get_mongo_collection c e).result with
      | error msg => exact Or.inl rfl
      | ok oc =>
        cases oc with
        | none => exact Or.inl rfl
        | some u =>
          cases u
          cases hi : e.insertOutcome with
          | raise cls m => exact Or.inl rfl
          | ok =>
            right
            refine ⟨⟨st.nextId,
              [("itemName", .str (f.itemName.getD "")),
               ("itemDescription", bsonOfOpt f.itemDescription),
               ("timestamp", .time e.now)]⟩, ⟨⟨s, hs, ?_⟩, ⟨e.now, ?_⟩⟩, rfl, rfl⟩
            · rw [hsome]
              exact List.mem_cons_self _ _
            · exact List.mem_cons_of_mem _
                (List.mem_cons_of_mem _ (List.mem_cons_self _ _))

/-- Invariant preserved by any run: ids in the store are exactly
`0, …, nextId − 1` in order, and every stored document is well-formed. -/
lemma run_invariant (rs : List (Request × Env)) :
    ∀ st : Option Nat × Store,
      st.2.docs.map StoredDoc.id = List.range st.2.nextId →
      (∀ d ∈ st.2.docs, goodDoc d) →
      (runFrom st rs).2.docs.map StoredDoc.id = List.range (runFrom st rs).2.nextId ∧
      ∀ d ∈ (runFrom st rs).2.docs, goodDoc d := by
  induction rs with
  | nil => intro st h1 h2; exact ⟨h1, h2⟩
  | cons x rest ih =>
    intro st h1 h2
    cases x with
    | mk r e =>
      simp only [runFrom]
      rcases step_store_cases st.1 st.2 r e with hst | ⟨d, hd, hid, hst⟩
      · exact ih _ (by rw [hst]; exact h1) (by rw [hst]; exact h2)
      · refine ih _ ?_ ?_
        · rw [hst]
          simp only [List.map_append, List.map_cons, List.map_nil, h1, hid,
            List.range_succ]
        · rw [hst]
          intro d' hd'
          rcases List.mem_append.mp hd' with h | h
          · exact h2 d' h
          · rw [List.mem_singleton] at h
            rw [h]
            exact hd

/-- Inversion of a 201 response: it can only come from the success branch, so
the request appended exactly the expected document, incremented the counter,
and returned the counter's old value as `item_id`. -/
lemma submit_201_char (c : Option Nat) (st : Store) (f : Form) (e : Env)
    (h : statusOf (submit_todo_item c st f e) = some 201) :
    itemIdOf (submit_todo_item c st f e) = some (toString st.nextId) ∧
    (submit_todo_item c st f e).store.docs =
      st.docs ++ [⟨st.nextId,
        [("itemName", .str (f.itemName.getD "")),
         ("itemDescription", bsonOfOpt f.itemDescription),
         ("timestamp", .time e.now)]⟩] ∧
    (submit_todo_item c st f e).store.nextId = st.nextId + 1 := by
  simp only [submit_todo_item] at h ⊢
  cases hb : pyFalsy f.itemName with
  | true => rw [hb] at h; simp [statusOf] at h
  | false =>
    rw [hb] at h
    simp only [Bool.false_eq_true, if_false] at h ⊢
    cases hr : (get_mongo_collection c e).result with
    | error msg => rw [hr] at h; simp [statusOf] at h
    | ok oc =>
      cases oc with
      | none => rw [hr] at h; simp [statusOf] at h
      | some u =>
        cases u
        cases hi : e.insertOutcome with
        | raise cls m => rw [hr, hi] at h; simp [statusOf] at h
        | ok => exact ⟨rfl, rfl, rfl⟩

/-- Characterization of a run of POSTs in which every request answered 201:
`item_id`s are the renderings of the consecutive counter values, and the final
store is the old one plus the built documents. -/
lemma posts_char (posts : List (Form × Env)) :
    ∀ st : Option Nat × Store,
      (∀ o ∈ postsTrace st posts, statusOf o = some 201) →
      List.filterMap itemIdOf (postsTrace st posts) =
        (List.range' st.2.nextId posts.length).map toString ∧
      (postsFinal st posts).2.docs = st.2.docs ++ buildDocs st.2.nextId posts ∧
      (postsFinal st posts).2.nextId = st.2.nextId + posts.length := by
  induction posts with
  | nil =>
    intro st _
    exact ⟨rfl, by simp [postsFinal, buildDocs], by simp [postsFinal]⟩
  | cons p rest ih =>
    intro st hok
    cases p with
    | mk f e =>
      have h201 : statusOf (submit_todo_item st.1 st.2 f e) = some 201 :=
        hok _ (by simp [postsTrace])
      obtain ⟨hid, hdocs, hnext⟩ := submit_201_char st.1 st.2 f e h201
      have htail : ∀ o ∈ postsTrace
          ((submit_todo_item st.1 st.2 f e).client,
           (submit_todo_item st.1 st.2 f e).store) rest,
          statusOf o = some 201 := fun o ho => hok o (by simp [postsTrace, ho])
      obtain ⟨ih1, ih2, ih3⟩ := ih _ htail
      refine ⟨?_, ?_, ?_⟩
      · simp only [postsTrace]
        rw [List.filterMap_cons_some hid, ih1, hnext, List.length_cons,
          List.range'_succ, List.map_cons]
      · simp only [postsTrace, postsFinal] at ih2 ⊢
        rw [ih2, hdocs, hnext, List.append_assoc]
        rfl
      · simp only [postsTrace, postsFinal] at ih3 ⊢
        rw [ih3, hnext, List.length_cons]
        omega

/-- The timestamps of the built documents are exactly the clock readings of
the requests, in order. -/
lemma timestamps_buildDocs (posts : List (Form × Env)) :
    ∀ n, timestamps (buildDocs n posts) = posts.map fun p => p.2.now := by
  induction posts with
  | nil => intro n; rfl
  | cons p rest ih =>
    intro n
    cases p with
    | mk f e =>
      show timestamps (⟨n, [("itemName", .str (f.itemName.getD "")),
        ("itemDescription", bsonOfOpt f.itemDescription),
        ("timestamp", .time e.now)]⟩ :: buildDocs (n + 1) rest) = _
      unfold timestamps
      rw [List.filterMap_cons_some (by rfl), List.map_cons]
      exact congrArg _ (ih (n + 1))

/-- C6: in every reachable store state, every persisted record has a non-empty
`itemName` and a timestamp; the identifiers are pairwise distinct, assigned
from the counter at insertion; and every request appends at most one record,
never mutating or removing an existing one (the old list stays a prefix
verbatim). -/
theorem c6_store_invariant (rs : List (Request × Env)) :
    (∀ d ∈ (run rs).2.docs, goodDoc d) ∧
    (run rs).2.docs.map StoredDoc.id = List.range (run rs).2.nextId ∧
    ((run rs).2.docs.map StoredDoc.id).Nodup ∧
    ∀ (r : Request) (e : Env),
      (run (rs ++ [(r, e)])).2.docs = (run rs).2.docs ∨
      ∃ d, goodDoc d ∧ d.id = (run rs).2.nextId ∧
        (run (rs ++ [(r, e)])).2.docs = (run rs).2.docs ++ [d] := by
  obtain ⟨h1, h2⟩ := run_invariant rs (none, initStore) rfl (by intro d hd; cases hd)
  simp only [run] at h1 h2 ⊢
  refine ⟨h2, h1, by rw [h1]; exact List.nodup_range _, fun r e => ?_⟩
  rw [runFrom_append]
  rcases step_store_cases (runFrom (none, initStore) rs).1
      (runFrom (none, initStore) rs).2 r e with hst | ⟨d, hd, hid, hst⟩
  · left
    show (step (runFrom (none, initStore) rs).1
      (runFrom (none, initStore) rs).2 r e).store.docs = _
    rw [hst]
  · right
    refine ⟨d, hd, hid, ?_⟩
    show (step (runFrom (none, initStore) rs).1
      (runFrom (none, initStore) rs).2 r e).store.docs = _
    rw [hst]

/-- C7: over any sequence of POSTs to `/submittodoitem` that all answered 201
(run from process start), the returned `item_id` values are pairwise distinct;
and if the server clock readings are non-decreasing across the requests, the
timestamps of the persisted records are non-decreasing in processing order. -/
theorem c7_distinct_ids_monotone_timestamps (posts : List (Form × Env))
    (hok : ∀ o ∈ postsTrace (none, initStore) posts, statusOf o = some 201) :
    (List.filterMap itemIdOf (postsTrace (none, initStore) posts)).Nodup ∧
    (List.Chain' (· ≤ ·) (posts.map fun p => p.2.now) →
      List.Chain' (· ≤ ·)
        (timestamps (postsFinal (none, initStore) posts).2.docs)) := by
  obtain ⟨h1, h2, _⟩ := posts_char posts (none, initStore) hok
  constructor
  · rw [h1]
    exact (List.nodup_range' _ _).map
      (fun a b hab => nat_repr_injective hab)
  · intro hch
    rw [h2]
    show List.Chain' _ (timestamps ([] ++ buildDocs 0 posts))
    rw [List.nil_append, timestamps_buildDocs posts 0]
    exact hch

theorem c7_witness :
    (∀ o ∈ postsTrace (none, initStore)
        [(⟨some "a", none⟩, ⟨.ok, .ok, .ok, 7, 5⟩),
         (⟨some "b", some "d"⟩, ⟨.ok, .ok, .ok, 9, 6⟩)],
      statusOf o = some 201) ∧
    ((List.filterMap itemIdOf (postsTrace (none, initStore)
        [(⟨some "a", none⟩, ⟨.ok, .ok, .ok, 7, 5⟩),
         (⟨some "b", some "d"⟩, ⟨.ok, .ok, .ok, 9, 6⟩)])).Nodup ∧
    (List.Chain' (· ≤ ·)
        (([(⟨some "a", none⟩, ⟨.ok, .ok, .ok, 7, 5⟩),
           (⟨some "b", some "d"⟩, ⟨.ok, .ok, .ok, 9, 6⟩)] :
          List (Form × Env)).map fun p => p.2.now) →
      List.Chain' (· ≤ ·)
        (timestamps (postsFinal (none, initStore)
          [(⟨some "a", none⟩, ⟨.ok, .ok, .ok, 7, 5⟩),
           (⟨some "b", some "d"⟩, ⟨.ok, .ok, .ok, 9, 6⟩)]).2.docs))) :=
  ⟨by decide,
    c7_distinct_ids_monotone_timestamps
      [(⟨some "a", none⟩, ⟨.ok, .ok, .ok, 7, 5⟩),
       (⟨some "b", some "d"⟩, ⟨.ok, .ok, .ok, 9, 6⟩)] (by decide)⟩

end TodoApp
